import Mathlib

/-!
Shallow embedding of the `agents/asana-writers` pipeline:

* `asana_pull.py` — paginated fetch with retry/backoff (`fetch_with_retry`),
  the per-query merge/de-dupe by `gid`, and the `_assignee_friendly`
  annotation inside `pull_writer_tasks_next_week`.
* `classify_tasks.py` — the hub-parent heuristic `is_hub_parent`, the
  JSONL-to-JSON container filter, and the single-upload classification run
  in `main` (poll to terminal status, `SystemExit` on a non-completed run,
  error-JSON fallback on a parse failure).
* `analyze_workload.py` — the regex-based heuristic `is_hub_container_task`
  built from `ACTION_RE`, `HUB_RE` and `EDITION_RE`.
* `summarize_workload.py` — `poll_until_complete` with its 600-second
  wall-clock deadline raising `TimeoutError`.

Python strings are modelled as `String`/`List Char`; time delays as `ℚ`
(every delay value reachable in the code — 1, 2, doubling capped at 10,
and parsed `Retry-After` values — is an exact binary rational, so `ℚ`
reproduces the float arithmetic exactly on this domain); network and
classifier collaborators as explicit oracle functions; raised exceptions
as `Except`.
-/

/-! ## Word-boundary regex search (model of `re.search` for the fixed patterns) -/

/-- Python regex `\w`: ASCII letters, digits, underscore. -/
def isWordChar (c : Char) : Bool := c.isAlphanum || c == '_'

/-- A word boundary holds at the string edge or next to a non-word character. -/
def boundaryOk : Option Char → Bool
  | none => true
  | some c => !isWordChar c

/-- `startsWithSeq w s` : `w` is a leading segment of `s`. -/
def startsWithSeq : List Char → List Char → Bool
  | [], _ => true
  | _ :: _, [] => false
  | c :: w, d :: s => c == d && startsWithSeq w s

/-- Strip a leading occurrence of `w` from `s`, returning the remainder. -/
def restAfter : List Char → List Char → Option (List Char)
  | [], s => some s
  | _ :: _, [] => none
  | c :: w, d :: s => if c == d then restAfter w s else none

/-- The pattern `\b w \b` matches at the current position (`prev` is the
character just before the position). -/
def wordHere (w : List Char) (prev : Option Char) (s : List Char) : Bool :=
  boundaryOk prev &&
    (match restAfter w s with
     | some rest => boundaryOk rest.head?
     | none => false)

/-- `re.search` for `\b w \b`: try every position of `s`. -/
def searchFrom (w : List Char) : Option Char → List Char → Bool
  | prev, [] => wordHere w prev []
  | prev, c :: rest => wordHere w prev (c :: rest) || searchFrom w (some c) rest

/-- Search for any alternative of a `\b(w1|w2|...)\b` pattern. -/
def reSearchAny (ws : List (List Char)) (s : List Char) : Bool :=
  ws.any (fun w => searchFrom w none s)

/-- The alternatives of `ACTION_RE` in `analyze_workload.py`, with the
optional groups `edit(?:ed|ing)?`, `draft(?:ed|ing)?`, `publish(?:ed|ing)?`,
`schedule(?:d)?`, `plan(?:ning)?`, `integrat(?:e|ed)` expanded. -/
def actionWords : List String :=
  ["writer", "editor", "editing", "edit", "edited", "draft", "drafted",
   "drafting", "writing", "write", "compose", "outline", "publish",
   "published", "publishing", "schedule", "scheduled", "plan", "planning",
   "preview link", "send to client", "sent to press", "feedback",
   "integrate", "integrated", "build", "create"]

/-- The alternatives of `HUB_RE = \b(runs|posted)\b`. -/
def hubWords : List String := ["runs", "posted"]

/-- `ACTION_RE.search(name)` (case-insensitive: search the lowercased text). -/
def actionFoundL (chars : List Char) : Bool :=
  reSearchAny (actionWords.map String.data) (chars.map Char.toLower)

/-- `HUB_RE.search(name)` (case-insensitive). -/
def hubFoundL (chars : List Char) : Bool :=
  reSearchAny (hubWords.map String.data) (chars.map Char.toLower)

/-- `EDITION_RE = \|\s*[A-Z]{2,5}\s*$` (case-insensitive): after trailing
whitespace the string ends in 2–5 letters, preceded (after optional
whitespace) by a vertical bar. -/
def editionEndL (chars : List Char) : Bool :=
  let r := chars.reverse.dropWhile Char.isWhitespace
  let letters := r.takeWhile Char.isAlpha
  let r2 := (r.dropWhile Char.isAlpha).dropWhile Char.isWhitespace
  if 2 ≤ letters.length ∧ letters.length ≤ 5 ∧ r2.head? = some '|' then true else false

/-- Python `str.strip()`: drop leading and trailing whitespace. -/
def pyStrip (l : List Char) : List Char :=
  ((l.dropWhile Char.isWhitespace).reverse.dropWhile Char.isWhitespace).reverse

/-- Python substring test `w in s`. -/
def containsSeq (w : List Char) : List Char → Bool
  | [] => startsWithSeq w []
  | c :: rest => startsWithSeq w (c :: rest) || containsSeq w rest

/-! ## `classify_tasks.is_hub_parent` -/

/-- The tuple passed to `low.startswith(...)` in `classify_tasks.is_hub_parent`
(the source binds the test to a local called `actionable_` + `prefix`). -/
def hubStarters : List String :=
  ["writer:", "editor:", "ready", "published", "planner:", "planning:",
   "preview link", "send to client"]

/-- `classify_tasks.py:is_hub_parent` — bars in the raw name, `" runs "` or
`" posted "` (with surrounding spaces) in the lowercased name, and none of
the fixed actionable phrases as a leading segment of the lowercased name. -/
def is_hub_parent (name : String) : Bool :=
  let n := name.data
  let low := n.map Char.toLower
  let bars := n.contains '|'
  let hasRunsOrPosted :=
    containsSeq " runs ".data low || containsSeq " posted ".data low
  let actionableStart := hubStarters.any (fun p => startsWithSeq p.data low)
  bars && hasRunsOrPosted && !actionableStart

/-! ## ATask records (the JSON objects flowing through the pipeline) -/

/-- A pulled Asana task, with the fields the embedded code reads:
`gid`, `name`, `is_subtask` (absent ↦ `none`), the assignee's `gid`
(absent/null assignee ↦ `none`), and the `_assignee_friendly` key added by
`pull_writer_tasks_next_week` (absent ↦ `none`). -/
structure ATask where
  gid : String
  name : String
  is_subtask : Option Bool
  assigneeGid : Option String
  assigneeFriendly : Option String
deriving DecidableEq, Repr

/-! ## `analyze_workload.is_hub_container_task` -/

/-- Body of `is_hub_container_task` after the subtask guard and `strip()`:
empty name is never a container; an `ACTION_RE` hit is never a container;
a bar together with a `HUB_RE` hit is a container (the source guards this
with `EDITION_RE.search(name) or True`). -/
def hubContainerCore (chars : List Char) : Bool :=
  if chars = [] then false
  else if actionFoundL chars then false
  else if chars.contains '|' && hubFoundL chars then
    (if editionEndL chars || true then true else false)
  else false

/-- The same decision procedure with the vacuous `EDITION_RE` test removed. -/
def hubContainerCoreSimple (chars : List Char) : Bool :=
  if chars = [] then false
  else if actionFoundL chars then false
  else if chars.contains '|' && hubFoundL chars then true
  else false

/-- `analyze_workload.py:is_hub_container_task`. -/
def is_hub_container_task (t : ATask) : Bool :=
  if t.is_subtask = some true then false
  else hubContainerCore (pyStrip t.name.data)

/-- The simpler function of claim C9: `is_subtask` not true, non-empty
stripped title with no action word, containing a bar and a `runs`/`posted`
word — with no edition-code test. -/
def is_hub_container_task_simple (t : ATask) : Bool :=
  if t.is_subtask = some true then false
  else hubContainerCoreSimple (pyStrip t.name.data)

/-! ## Python dict keyed by gid (`by_gid` in `pull_writer_tasks_next_week`) -/

/-- A Python dict: association list, insertion replaces in place. -/
abbrev PyDict := List (String × ATask)

/-- `d[g] = t`: replace the existing entry in place, else append. -/
def dictInsert : PyDict → String → ATask → PyDict
  | [], g, t => [(g, t)]
  | (k, v) :: rest, g, t =>
      if k = g then (k, t) :: rest else (k, v) :: dictInsert rest g t

/-- `d.get(g)`. -/
def dictLookup (g : String) : PyDict → Option ATask
  | [] => none
  | (k, v) :: rest => if k = g then some v else dictLookup g rest

/-- `list(d.keys())`. -/
def dictKeys (d : PyDict) : List String := d.map Prod.fst

/-- `list(d.values())`. -/
def dictValues (d : PyDict) : List ATask := d.map Prod.snd

/-- The guard `if t and t.get("gid")` of the merge loop: the task carries a
non-empty gid (a parsed task object itself is a non-empty dict). -/
def validGid (t : ATask) : Bool := t.gid != ""

/-- One pass of `for t in l: if t and t.get("gid"): by_gid[t["gid"]] = t`
starting from the dict `d`. -/
def mergeInto (d : PyDict) (l : List ATask) : PyDict :=
  l.foldl (fun d t => if validGid t then dictInsert d t.gid t else d) d

/-- The merge/de-dupe block of `pull_writer_tasks_next_week`:
`for t in [*parents, *subs]: ... by_gid[t["gid"]] = t` from an empty dict. -/
def mergeByGid (parents subs : List ATask) : PyDict :=
  mergeInto [] (parents ++ subs)

/-- `Option` fallback: keep the first argument when present. -/
def oOr {α : Type} : Option α → Option α → Option α
  | some x, _ => some x
  | none, b => b

/-- The last item of `l` with a valid gid equal to `g` (later entries win). -/
def lastValidG (g : String) : List ATask → Option ATask
  | [] => none
  | t :: r => oOr (lastValidG g r) (if validGid t ∧ t.gid = g then some t else none)

/-- Key list produced by one merge pass over `l` starting from keys `ks`
(new valid gids are appended in first-occurrence order). -/
def foldKeys (ks : List String) : List ATask → List String
  | [] => ks
  | t :: r =>
      foldKeys
        (if validGid t then (if t.gid ∈ ks then ks else ks ++ [t.gid]) else ks) r

/-! ## Annotation, container-filter and pull stages -/

/-- The annotation loop of `pull_writer_tasks_next_week`: both branches of
`if t.get("assignee") and t["assignee"].get("gid") == gid:` store the same
friendly name. -/
def annotateTask (friendly gid : String) (t : ATask) : ATask :=
  if t.assigneeGid = some gid then { t with assigneeFriendly := some friendly }
  else { t with assigneeFriendly := some friendly }

/-- One (day × assignee) unit of `pull_writer_tasks_next_week`: merge the
parent and subtask fetches by gid, then annotate every merged value. -/
def mergeStage (friendly gid : String) (parents subs : List ATask) : List ATask :=
  (dictValues (mergeByGid parents subs)).map (annotateTask friendly gid)

/-- `classify_tasks.jsonl_to_json_file`: keep a task unless hub parents are
excluded and `is_hub_parent` flags its name; tasks are appended unchanged. -/
def containerFilterStage (includeHub : Bool) (ts : List ATask) : List ATask :=
  ts.filter (fun t => includeHub || !is_hub_parent t.name)

/-- `pull_writer_tasks_next_week` over an abstract fetch collaborator
`fetch day gid is_subtask`: for every day and every (friendly, gid) pair,
fetch parents (`is_subtask=False`) and subtasks (`is_subtask=True`), merge
by gid, annotate, and extend the result list. -/
def pull_writer_tasks (fetch : String → String → Bool → List ATask)
    (days : List String) (assignees : List (String × String)) : List ATask :=
  days.flatMap (fun day => assignees.flatMap (fun p =>
    mergeStage p.1 p.2 (fetch day p.2 false) (fetch day p.2 true)))

/-! ## Classification run (`classify_tasks.main`, lines 116–193) -/

/-- Terminal state of a classifier run as seen by the polling loops. -/
structure RunOutcome where
  status : String
  text : String

/-- What `main` writes out: either the parsed JSON or the
`{"error": "invalid_json", ...}` fallback blob built from the raw text. -/
inductive ClassifyOutput (J : Type) where
  | parsed (v : J)
  | invalidJsonBlob (raw : String)
deriving DecidableEq

/-- The classification core of `classify_tasks.main`: upload the whole item
list in one file, launch one run, poll it to a terminal status
(`classifier items` is that terminal outcome), raise `SystemExit` if the
status is not `completed`, otherwise parse the assistant text with
`json.loads` (`loads`), falling back to the error blob on a parse failure.
Returns the list of classifier submissions made and the final result. -/
def classify_main_core {J : Type} (loads : String → Option J)
    (classifier : List ATask → RunOutcome) (items : List ATask) :
    List (List ATask) × Except String (ClassifyOutput J) :=
  let out := classifier items
  ([items],
    if out.status = "completed" then
      match loads out.text with
      | some v => Except.ok (ClassifyOutput.parsed v)
      | none => Except.ok (ClassifyOutput.invalidJsonBlob out.text)
    else Except.error ("Assistant run did not complete: status=" ++ out.status))

/-- The terminal statuses tested by both polling loops. -/
def runTerminal (s : String) : Bool :=
  s == "completed" || s == "failed" || s == "cancelled" || s == "expired"

/-- The polling loop of `classify_tasks.main` (lines 141–145): retrieve the
run status forever until it is terminal; there is no deadline. `statuses i`
is the status seen on the i-th retrieve; `fuel` bounds the modelled
unrolling, `none` meaning the loop is still running after `fuel` polls. -/
def classify_poll (statuses : Nat → String) : Nat → Nat → Option String
  | _, 0 => none
  | i, fuel + 1 =>
      if runTerminal (statuses i) then some (statuses i)
      else classify_poll statuses (i + 1) fuel

/-- `summarize_workload.poll_until_complete`: return the run on a terminal
status, raise `TimeoutError` once the elapsed wall-clock time exceeds
`timeout` (default 600 in the source), else keep polling. `elapsed i` is
`time.time() - t0` at the i-th iteration. -/
def poll_until_complete (statuses : Nat → String) (elapsed : Nat → ℚ)
    (timeout : ℚ) : Nat → Nat → Option (Except String String)
  | _, 0 => none
  | i, fuel + 1 =>
      if runTerminal (statuses i) then some (Except.ok (statuses i))
      else if elapsed i > timeout then
        some (Except.error "Assistant run timed out")
      else poll_until_complete statuses elapsed timeout (i + 1) fuel

/-! ## `asana_pull.fetch_with_retry` -/

/-- An HTTP response: status code and the parsed `Retry-After` header. -/
structure HttpResp where
  status : Nat
  retryAfter : Option ℚ
deriving DecidableEq

/-- The loop body of `fetch_with_retry`. `responses n` is the response to
the n-th request; `remaining` is `max_attempts - attempt`, so
`attempt < max_attempts` iff `remaining > 0`. Returns the response handed
back, the number of requests issued, and the list of sleeps performed:
on 429 sleep `max(1, Retry-After or 2)`; on 5xx sleep `backoff` and double
it, capped at 10; any other status returns at once. -/
def fetch_with_retry_go (responses : Nat → HttpResp) :
    Nat → Nat → ℚ → HttpResp × Nat × List ℚ
  | attempt, 0, _ => (responses attempt, attempt, [])
  | attempt, remaining + 1, backoff =>
      let resp := responses attempt
      if resp.status = 429 then
        let d := max 1 (resp.retryAfter.getD 2)
        let pr := fetch_with_retry_go responses (attempt + 1) remaining backoff
        (pr.1, pr.2.1, d :: pr.2.2)
      else if 500 ≤ resp.status ∧ resp.status < 600 then
        let pr := fetch_with_retry_go responses (attempt + 1) remaining
          (min (backoff * 2) 10)
        (pr.1, pr.2.1, backoff :: pr.2.2)
      else (resp, attempt, [])

/-- `fetch_with_retry(url, max_attempts)`: attempts numbered from 1,
initial backoff 1.0. -/
def fetch_with_retry (responses : Nat → HttpResp) (maxAttempts : Nat) :
    HttpResp × Nat × List ℚ :=
  fetch_with_retry_go responses 1 (maxAttempts - 1) 1

/-- The status check of `fetch_tasks_for_day` (lines 142–144): a response
outside 2xx raises `RuntimeError` — the `RemoteError` of the spec. -/
def fetch_page_checked (responses : Nat → HttpResp) (maxAttempts : Nat) :
    Except String HttpResp :=
  let resp := (fetch_with_retry responses maxAttempts).1
  if resp.status < 200 ∨ 300 ≤ resp.status then
    Except.error "Asana error" else Except.ok resp

/-- The pure 5xx backoff schedule: start at `b`, double capped at 10. -/
def backoffList : Nat → ℚ → List ℚ
  | 0, _ => []
  | r + 1, b => b :: backoffList r (min (b * 2) 10)

/-! ## Concrete fixtures used by counterexamples and witnesses -/

/-- An ordinary actionable task as fetched (no `_assignee_friendly` yet). -/
def tSample : ATask := ⟨"1", "Write story", some false, none, none⟩

/-- A hub-looking title that also contains the action word `draft`. -/
def tDraftHub : ATask := ⟨"2", "Acme | draft runs 5/1 | NYC", some false, none, none⟩

/-- A subtask whose title looks exactly like a hub container. -/
def tSubHub : ATask := ⟨"3", "Acme | Weekly Digest runs 5/1 | RAL", some true, none, none⟩

/-- A genuine hub container title on a non-subtask. -/
def tAcmeHub : ATask := ⟨"4", "Acme | Weekly Digest runs 5/1 | NYC", some false, none, none⟩

/-- Gid `"7"` as returned by the parents query. -/
def tParentV : ATask := ⟨"7", "Parent version", some false, none, none⟩

/-- The same gid `"7"` as returned by the later subtasks query. -/
def tSubV : ATask := ⟨"7", "Subtask version", some true, none, none⟩

/-- A classifier oracle whose run completes with unparsable text. -/
def clCompleted : List ATask → RunOutcome := fun _ => ⟨"completed", "not json"⟩

/-- A classifier oracle whose run ends in status `failed`. -/
def clFailed : List ATask → RunOutcome := fun _ => ⟨"failed", ""⟩

/-- A `json.loads` oracle that always fails to parse. -/
def loadsNone : String → Option Unit := fun _ => none

/-- A remote that always rate-limits, advertising `Retry-After: 3`. -/
def oracle429 : Nat → HttpResp := fun _ => ⟨429, some 3⟩

/-- A remote that always answers 503 with no `Retry-After`. -/
def oracle503 : Nat → HttpResp := fun _ => ⟨503, none⟩

/-- A remote that always rate-limits without a `Retry-After` header. -/
def oracle429bare : Nat → HttpResp := fun _ => ⟨429, none⟩

/-- A rate-limiting remote whose advertised delay drops from 10 to 1/2. -/
def oracleDropRA : Nat → HttpResp :=
  fun n => if n = 1 then ⟨429, some 10⟩ else ⟨429, some (1 / 2)⟩

/-- A run that never reaches a terminal status. -/
def stuckStatuses : Nat → String := fun _ => "in_progress"

/-- A wall clock already past the 600-second deadline at the first poll. -/
def lateClock : Nat → ℚ := fun _ => 601

/-! ## Helper lemmas -/

theorem oOr_assoc {α : Type} (a b c : Option α) :
    oOr (oOr a b) c = oOr a (oOr b c) := by
  cases a <;> rfl

theorem oOr_none_right {α : Type} (a : Option α) : oOr a none = a := by
  cases a <;> rfl

theorem oOr_some {α : Type} (x : α) (b : Option α) : oOr (some x) b = some x := rfl

theorem oOr_self_absorb {α : Type} (a b : Option α) :
    oOr a (oOr a b) = oOr a b := by
  cases a <;> rfl

/-! ## Claim C9 — the edition-code pattern is dead code -/

theorem hubContainerCore_eq_simple (chars : List Char) :
    hubContainerCore chars = hubContainerCoreSimple chars := by
  unfold hubContainerCore hubContainerCoreSimple
  simp

/-- C9: the result of `is_hub_container_task` never depends on `EDITION_RE`:
because that check is disjoined with `True`, the function is extensionally
equal to the simpler function that declares any non-subtask item with a
non-empty stripped title containing no action word, a bar, and the word
`runs` or `posted` to be a container, edition code or not. -/
theorem hub_container_edition_irrelevant (t : ATask) :
    is_hub_container_task t = is_hub_container_task_simple t := by
  unfold is_hub_container_task is_hub_container_task_simple
  split
  · rfl
  · exact hubContainerCore_eq_simple _

/-! ## Claim C3 — action words versus structural markers -/

/-- C3 counterexample: the title `"Acme | draft runs 5/1 | NYC"` contains
the action word `draft` (an `ACTION_RE` alternative, matched anywhere,
case-insensitively), yet `is_hub_parent` still classifies it as a container
(it only tests its fixed phrases as title *prefixes*); and the subtask
`tSubHub` has no action word, a bar and the word `runs`, yet
`is_hub_container_task` returns `false` — so the claimed rule fails for
both halves as stated. -/
theorem hub_rule_cex :
    (actionFoundL (pyStrip tDraftHub.name.data) = true
      ∧ is_hub_parent tDraftHub.name = true)
    ∧ (actionFoundL (pyStrip tSubHub.name.data) = false
      ∧ (pyStrip tSubHub.name.data).contains '|' = true
      ∧ hubFoundL (pyStrip tSubHub.name.data) = true
      ∧ is_hub_container_task tSubHub = false) := by
  decide

/-- C3 (amended): the rule holds for `is_hub_container_task` — an
`ACTION_RE` action word in the stripped title forces `false`; with no
action word, a bar together with a `HUB_RE` word forces `true` provided
the item is not a subtask. (`is_hub_parent` tests its action phrases only
as title prefixes, so it does not satisfy the rule.) -/
theorem hub_container_rule (t : ATask) :
    (actionFoundL (pyStrip t.name.data) = true → is_hub_container_task t = false)
    ∧ (t.is_subtask ≠ some true →
        actionFoundL (pyStrip t.name.data) = false →
        (pyStrip t.name.data).contains '|' = true →
        hubFoundL (pyStrip t.name.data) = true →
        is_hub_container_task t = true) := by
  constructor
  · intro h
    unfold is_hub_container_task hubContainerCore
    split
    · rfl
    · simp [h]
  · intro h1 h2 h3 h4
    have h0 : pyStrip t.name.data ≠ [] := by
      intro he
      rw [he] at h3
      exact absurd h3 (by decide)
    have h3' : '|' ∈ pyStrip t.name.data := by simpa using h3
    unfold is_hub_container_task hubContainerCore
    simp [h0, h1, h2, h3', h4]

theorem hub_container_rule_witness :
    is_hub_container_task tDraftHub = false ∧ is_hub_container_task tAcmeHub = true :=
  ⟨(hub_container_rule tDraftHub).1 (by decide),
   (hub_container_rule tAcmeHub).2 (by decide) (by decide) (by decide) (by decide)⟩

/-! ## Claim C4 — the subunit flag -/

/-- C4 counterexample: `tSubHub` has `is_subtask = True` and a
container-looking title, yet `is_hub_parent` — which receives only the
title and ignores the subunit flag — returns `true`, so the claim fails
for that implementation. -/
theorem subtask_cex :
    tSubHub.is_subtask = some true ∧ is_hub_parent tSubHub.name = true := by
  decide

/-- C4 (amended): `is_hub_container_task` returns `false` for every item
whose `is_subtask` flag is `True`, regardless of the title;
`is_hub_parent` receives only the title, so the guarantee does not extend
to it. -/
theorem subtask_never_container (t : ATask) (h : t.is_subtask = some true) :
    is_hub_container_task t = false := by
  unfold is_hub_container_task
  simp [h]

theorem subtask_never_container_witness :
    is_hub_container_task tSubHub = false :=
  subtask_never_container tSubHub rfl

/-! ## Claim C1 — no batching exists in the classify operation -/

/-- C1 counterexample: on an input of 100 items — more than any
`BATCH_SIZE` in the claimed 60–80 range — the classify operation makes a
single classifier submission containing all 100 items, so it neither
partitions the input into batches of at most `BATCH_SIZE` nor splits any
batch at its midpoint. -/
theorem classify_no_batching_cex :
    (classify_main_core loadsNone clCompleted (List.replicate 100 tSample)).1
      = [List.replicate 100 tSample]
    ∧ ∃ b ∈ (classify_main_core loadsNone clCompleted (List.replicate 100 tSample)).1,
        80 < b.length := by
  refine ⟨rfl, List.replicate 100 tSample, ?_, ?_⟩
  · simp [classify_main_core]
  · simp

/-- C1 (amended): for every input item sequence the classify operation of
`classify_tasks.main` submits the entire sequence as one single classifier
call — the list of submissions is exactly `[items]` — and performs no
`BATCH_SIZE` partitioning, no `MIN_BATCH` recursion floor and no midpoint
splitting on validation failure. -/
theorem classify_single_submission {J : Type} (loads : String → Option J)
    (classifier : List ATask → RunOutcome) (items : List ATask) :
    (classify_main_core loads classifier items).1 = [items] := rfl

/-! ## Claim C2 — error behaviour of the classify operation -/

/-- C2 counterexample: when the classifier run ends in status `failed`,
the classify operation raises (`SystemExit` in the source, modelled as
`Except.error`) instead of returning a partial or empty result — a single
failed run aborts the whole pipeline. -/
theorem classify_raises_cex :
    (classify_main_core loadsNone clFailed [tSample]).2
      = Except.error "Assistant run did not complete: status=failed" := rfl

/-- C2 (amended): the classify operation returns a result (never raises)
exactly when the run's terminal status is `completed`; in particular raw
output that fails to parse is absorbed into the `invalid_json` error blob
rather than raised — but a run ending in any non-completed status raises
`SystemExit` to the caller, aborting the run. -/
theorem classify_error_iff_not_completed {J : Type} (loads : String → Option J)
    (classifier : List ATask → RunOutcome) (items : List ATask) :
    ((∃ v, (classify_main_core loads classifier items).2 = Except.ok v)
      ↔ (classifier items).status = "completed")
    ∧ ((classifier items).status = "completed" →
        loads (classifier items).text = none →
        (classify_main_core loads classifier items).2
          = Except.ok (ClassifyOutput.invalidJsonBlob (classifier items).text)) := by
  constructor
  · constructor
    · intro ⟨v, hv⟩
      by_contra hs
      simp [classify_main_core, hs] at hv
    · intro hs
      unfold classify_main_core
      simp only [hs, if_pos]
      cases hload : loads (classifier items).text
      · exact ⟨ClassifyOutput.invalidJsonBlob (classifier items).text, by simp [hload]⟩
      · next v => exact ⟨ClassifyOutput.parsed v, by simp [hload]⟩
  · intro hs hload
    unfold classify_main_core
    simp [hs, hload]

theorem classify_error_policy_witness :
    (classify_main_core loadsNone clCompleted [tSample]).2
      = Except.ok (ClassifyOutput.invalidJsonBlob "not json") :=
  (classify_error_iff_not_completed loadsNone clCompleted [tSample]).2 rfl rfl

/-! ## Claim C8 — polling deadlines -/

/-- A never-terminal status stream defeats `classify_poll` for any fuel. -/
theorem classify_poll_stuck (statuses : Nat → String)
    (h : ∀ j, statuses j = "in_progress") :
    ∀ fuel i, classify_poll statuses i fuel = none := by
  intro fuel
  induction fuel with
  | zero => intro i; rfl
  | succ n ih =>
      intro i
      unfold classify_poll
      rw [h i]
      simpa using ih (i + 1)

/-- C8 counterexample: the summarizer's polling loop, one tick past its
600-second deadline on a non-terminal run, raises `TimeoutError` — a
distinct error surfaced to the caller, not a validation failure feeding a
split/salvage path — while the classify script's own polling loop has no
deadline at all: on a never-terminal run it is still polling after any
number of iterations. -/
theorem poll_timeout_cex :
    poll_until_complete stuckStatuses lateClock 600 0 3
      = some (Except.error "Assistant run timed out")
    ∧ classify_poll stuckStatuses 0 50 = none := by
  have hrt : runTerminal "in_progress" = false := by decide
  constructor
  · norm_num [poll_until_complete, stuckStatuses, lateClock, hrt]
  · decide

/-- C8 (amended): the classify script's poll loop (`classify_tasks.main`)
has no wall-clock deadline — a never-terminal run keeps it polling
forever — while `summarize_workload.poll_until_complete` enforces a
600-second default deadline whose expiry raises `TimeoutError` to the
caller as a distinct error; no split/salvage path exists for either. -/
theorem poll_deadline_behavior (statuses : Nat → String) (elapsed : Nat → ℚ)
    (i fuel : Nat) :
    ((∀ j, statuses j = "in_progress") → classify_poll statuses i fuel = none)
    ∧ (runTerminal (statuses i) = false → elapsed i > 600 →
        poll_until_complete statuses elapsed 600 i (fuel + 1)
          = some (Except.error "Assistant run timed out")) := by
  constructor
  · intro h
    exact classify_poll_stuck statuses h fuel i
  · intro hterm hlate
    unfold poll_until_complete
    simp [hterm, hlate]

theorem poll_deadline_witness :
    classify_poll stuckStatuses 0 4 = none
    ∧ poll_until_complete stuckStatuses lateClock 600 0 5
        = some (Except.error "Assistant run timed out") :=
  ⟨(poll_deadline_behavior stuckStatuses lateClock 0 4).1 (fun _ => rfl),
   (poll_deadline_behavior stuckStatuses lateClock 0 4).2 (by decide) (by norm_num [lateClock])⟩

/-! ## Claim C5 — fetch retry policy -/

theorem fetchGo_zero (responses : Nat → HttpResp) (attempt : Nat) (b : ℚ) :
    fetch_with_retry_go responses attempt 0 b = (responses attempt, attempt, []) := rfl

theorem fetchGo_succ (responses : Nat → HttpResp) (attempt n : Nat) (b : ℚ) :
    fetch_with_retry_go responses attempt (n + 1) b =
      if (responses attempt).status = 429 then
        ((fetch_with_retry_go responses (attempt + 1) n b).1,
         (fetch_with_retry_go responses (attempt + 1) n b).2.1,
         max 1 ((responses attempt).retryAfter.getD 2)
           :: (fetch_with_retry_go responses (attempt + 1) n b).2.2)
      else if 500 ≤ (responses attempt).status ∧ (responses attempt).status < 600 then
        ((fetch_with_retry_go responses (attempt + 1) n (min (b * 2) 10)).1,
         (fetch_with_retry_go responses (attempt + 1) n (min (b * 2) 10)).2.1,
         b :: (fetch_with_retry_go responses (attempt + 1) n (min (b * 2) 10)).2.2)
      else ((responses attempt), attempt, []) := rfl

theorem fetchGo_count_le (responses : Nat → HttpResp) :
    ∀ (r attempt : Nat) (b : ℚ),
      (fetch_with_retry_go responses attempt r b).2.1 ≤ attempt + r := by
  intro r
  induction r with
  | zero => intro attempt b; rw [fetchGo_zero]; dsimp only; omega
  | succ n ih =>
      intro attempt b
      rw [fetchGo_succ]
      by_cases h1 : (responses attempt).status = 429
      · rw [if_pos h1]
        dsimp only
        have := ih (attempt + 1) b
        omega
      · by_cases h2 : 500 ≤ (responses attempt).status ∧ (responses attempt).status < 600
        · rw [if_neg h1, if_pos h2]
          dsimp only
          have := ih (attempt + 1) (min (b * 2) 10)
          omega
        · rw [if_neg h1, if_neg h2]
          dsimp only
          omega

theorem fetchGo_always429 (responses : Nat → HttpResp)
    (h : ∀ n, (responses n).status = 429) :
    ∀ (r attempt : Nat) (b : ℚ),
      (fetch_with_retry_go responses attempt r b).2.1 = attempt + r
      ∧ (fetch_with_retry_go responses attempt r b).1 = responses (attempt + r) := by
  intro r
  induction r with
  | zero => intro attempt b; rw [fetchGo_zero]; exact ⟨rfl, rfl⟩
  | succ n ih =>
      intro attempt b
      rw [fetchGo_succ]
      simp only [h attempt, if_pos]
      have h1 := ih (attempt + 1) b
      refine ⟨?_, ?_⟩
      · rw [h1.1]; omega
      · rw [h1.2]
        congr 1
        omega

theorem fetchGo_5xx_sleeps (responses : Nat → HttpResp)
    (h : ∀ n, 500 ≤ (responses n).status ∧ (responses n).status < 600) :
    ∀ (r attempt : Nat) (b : ℚ),
      (fetch_with_retry_go responses attempt r b).2.2 = backoffList r b := by
  intro r
  induction r with
  | zero => intro attempt b; rw [fetchGo_zero]; rfl
  | succ n ih =>
      intro attempt b
      have hne : ¬ (responses attempt).status = 429 := by
        have := (h attempt).1; omega
      rw [fetchGo_succ, if_neg hne, if_pos (h attempt)]
      dsimp only
      rw [backoffList, ih (attempt + 1) (min (b * 2) 10)]

theorem backoffList_chain :
    ∀ (r : Nat) (b : ℚ), 0 ≤ b → b ≤ 10 → List.Chain' (· ≤ ·) (backoffList r b) := by
  intro r
  induction r with
  | zero => intro b _ _; simp [backoffList]
  | succ n ih =>
      intro b hb0 hb10
      rw [backoffList, List.chain'_cons']
      constructor
      · intro y hy
        cases n with
        | zero => simp [backoffList] at hy
        | succ m =>
            rw [backoffList] at hy
            simp only [List.head?_cons, Option.mem_def, Option.some.injEq] at hy
            rw [← hy]
            exact le_min (by linarith) hb10
      · exact ih (min (b * 2) 10) (le_min (by linarith) (by norm_num)) (min_le_right _ _)

theorem fetchGo_429const_sleeps (responses : Nat → HttpResp) (hdr : Option ℚ)
    (h : ∀ n, responses n = ⟨429, hdr⟩) :
    ∀ (r attempt : Nat) (b : ℚ),
      (fetch_with_retry_go responses attempt r b).2.2
        = List.replicate r (max 1 (hdr.getD 2)) := by
  intro r
  induction r with
  | zero => intro attempt b; rw [fetchGo_zero]; rfl
  | succ n ih =>
      intro attempt b
      rw [fetchGo_succ]
      have hs : (responses attempt).status = 429 := by rw [h attempt]
      simp only [hs, if_pos, h attempt, List.replicate_succ]
      rw [ih (attempt + 1) b]

/-- C5 counterexample: against a rate-limiting source whose advertised
`Retry-After` drops from 10 to 1/2, `fetch_with_retry` sleeps
`[10, 1, 1, 1]` — the delay between successive attempts *decreases*
(10 is followed by 1), and the second wait is 1, not the advertised 1/2
(the code sleeps `max(1.0, retry_after)`), so the claimed non-decreasing /
advertised-delay behaviour fails as stated. -/
theorem fetch_retry_cex :
    (fetch_with_retry oracleDropRA 5).2.2 = [10, 1, 1, 1]
    ∧ ¬ List.Chain' (· ≤ ·) ((fetch_with_retry oracleDropRA 5).2.2)
    ∧ (oracleDropRA 2).retryAfter = some (1 / 2) ∧ (1 : ℚ) ≠ 1 / 2 := by
  have heq : (fetch_with_retry oracleDropRA 5).2.2 = [10, 1, 1, 1] := by
    norm_num [fetch_with_retry, fetchGo_succ, fetchGo_zero, oracleDropRA, max_def]
  refine ⟨heq, ?_, rfl, by norm_num⟩
  intro hch
  rw [heq, List.chain'_cons] at hch
  have := hch.1
  norm_num at this

/-- C5 (amended): `fetch_with_retry` issues at most `max_attempts` requests
for every source; an always-rate-limited source produces exactly
`max_attempts` requests, after which the page fetch surfaces the error
(`RuntimeError`, the spec's `RemoteError`); when every retried response is
a 5xx the delays follow the exponential backoff starting at 1, doubling,
capped at 10, and are therefore non-decreasing; on a rate-limit response
the code waits `max(1, Retry-After)` — the advertised delay floored at 1,
or `max(1, 2) = 2` when the header is absent — which need not be
non-decreasing when the advertised delays decrease. -/
theorem fetch_retry_policy (responses : Nat → HttpResp) (m : Nat) (ra : ℚ) :
    (1 ≤ m → (fetch_with_retry responses m).2.1 ≤ m)
    ∧ (1 ≤ m → (∀ n, (responses n).status = 429) →
        (fetch_with_retry responses m).2.1 = m
        ∧ fetch_page_checked responses m = Except.error "Asana error")
    ∧ ((∀ n, 500 ≤ (responses n).status ∧ (responses n).status < 600) →
        (fetch_with_retry responses m).2.2 = backoffList (m - 1) 1
        ∧ List.Chain' (· ≤ ·) (fetch_with_retry responses m).2.2)
    ∧ ((∀ n, responses n = ⟨429, some ra⟩) →
        (fetch_with_retry responses m).2.2 = List.replicate (m - 1) (max 1 ra))
    ∧ ((∀ n, responses n = ⟨429, none⟩) →
        (fetch_with_retry responses m).2.2 = List.replicate (m - 1) 2) := by
  refine ⟨?_, ?_, ?_, ?_, ?_⟩
  · intro hm
    have := fetchGo_count_le responses (m - 1) 1 1
    unfold fetch_with_retry
    omega
  · intro hm h429
    have h := fetchGo_always429 responses h429 (m - 1) 1 1
    constructor
    · unfold fetch_with_retry
      rw [h.1]
      omega
    · unfold fetch_page_checked fetch_with_retry
      rw [h.2]
      have hs : (responses (1 + (m - 1))).status = 429 := h429 _
      simp [hs]
  · intro h5
    have h := fetchGo_5xx_sleeps responses h5 (m - 1) 1 1
    unfold fetch_with_retry
    rw [h]
    exact ⟨rfl, backoffList_chain (m - 1) 1 (by norm_num) (by norm_num)⟩
  · intro h429
    simpa using fetchGo_429const_sleeps responses (some ra) h429 (m - 1) 1 1
  · intro h429
    have h := fetchGo_429const_sleeps responses none h429 (m - 1) 1 1
    unfold fetch_with_retry
    rw [h]
    norm_num [max_def]

theorem fetch_retry_policy_witness :
    (fetch_with_retry oracle429 5).2.1 ≤ 5
    ∧ ((fetch_with_retry oracle429 5).2.1 = 5
        ∧ fetch_page_checked oracle429 5 = Except.error "Asana error")
    ∧ List.Chain' (· ≤ ·) (fetch_with_retry oracle503 5).2.2
    ∧ (fetch_with_retry oracle429 5).2.2 = List.replicate 4 (max 1 3)
    ∧ (fetch_with_retry oracle429bare 5).2.2 = List.replicate 4 2 :=
  ⟨(fetch_retry_policy oracle429 5 3).1 (by norm_num),
   (fetch_retry_policy oracle429 5 3).2.1 (by norm_num) (fun _ => rfl),
   ((fetch_retry_policy oracle503 5 0).2.2.1
      (fun n => ⟨by norm_num [oracle503], by norm_num [oracle503]⟩)).2,
   (fetch_retry_policy oracle429 5 3).2.2.2.1 (fun _ => rfl),
   (fetch_retry_policy oracle429bare 5 0).2.2.2.2 (fun _ => rfl)⟩

/-! ## Claim C6 — merge by gid: dict lemmas -/

theorem mergeInto_nil (d : PyDict) : mergeInto d [] = d := rfl

theorem mergeInto_cons (d : PyDict) (t : ATask) (l : List ATask) :
    mergeInto d (t :: l)
      = mergeInto (if validGid t then dictInsert d t.gid t else d) l := rfl

theorem lastValidG_cons (g : String) (t : ATask) (r : List ATask) :
    lastValidG g (t :: r)
      = oOr (lastValidG g r) (if validGid t ∧ t.gid = g then some t else none) := rfl

theorem foldKeys_nil (ks : List String) : foldKeys ks [] = ks := rfl

theorem foldKeys_cons (ks : List String) (t : ATask) (l : List ATask) :
    foldKeys ks (t :: l)
      = foldKeys
          (if validGid t then (if t.gid ∈ ks then ks else ks ++ [t.gid]) else ks)
          l := rfl

theorem dictLookup_insert (g g' : String) (t : ATask) :
    ∀ d : PyDict,
      dictLookup g' (dictInsert d g t) = if g' = g then some t else dictLookup g' d := by
  intro d
  induction d with
  | nil =>
      by_cases h : g' = g
      · subst h; simp [dictInsert, dictLookup]
      · simp [dictInsert, dictLookup, h, Ne.symm h]
  | cons p rest ih =>
      obtain ⟨k, v⟩ := p
      by_cases hk : k = g
      · subst hk
        simp only [dictInsert, if_pos rfl, dictLookup]
        by_cases h : k = g'
        · subst h; simp
        · simp [h, Ne.symm h]
      · simp only [dictInsert, if_neg hk, dictLookup]
        by_cases h1 : k = g'
        · subst h1
          simp [hk, Ne.symm hk]
        · simp only [if_neg h1, ih]

theorem dictKeys_insert (g : String) (t : ATask) :
    ∀ d : PyDict,
      dictKeys (dictInsert d g t)
        = if g ∈ dictKeys d then dictKeys d else dictKeys d ++ [g] := by
  intro d
  induction d with
  | nil => simp [dictInsert, dictKeys]
  | cons p rest ih =>
      obtain ⟨k, v⟩ := p
      by_cases hk : k = g
      · subst hk
        simp [dictInsert, dictKeys]
      · simp only [dictInsert, if_neg hk, dictKeys, List.map_cons] at ih ⊢
        rw [ih]
        by_cases hm : g ∈ dictKeys rest
        · simp only [dictKeys] at hm
          simp [hm, Ne.symm hk]
        · simp only [dictKeys] at hm
          simp [hm, Ne.symm hk]

theorem dictLookup_not_mem (g : String) :
    ∀ d : PyDict, g ∉ dictKeys d → dictLookup g d = none := by
  intro d
  induction d with
  | nil => intro _; rfl
  | cons p rest ih =>
      obtain ⟨k, v⟩ := p
      intro h
      simp only [dictKeys, List.map_cons, List.mem_cons, not_or] at h
      simp only [dictLookup, if_neg (fun hh : k = g => h.1 hh.symm)]
      exact ih (by simpa [dictKeys] using h.2)

theorem dict_ext : ∀ (d₁ d₂ : PyDict),
    dictKeys d₁ = dictKeys d₂ → (dictKeys d₁).Nodup →
    (∀ g, dictLookup g d₁ = dictLookup g d₂) → d₁ = d₂ := by
  intro d₁
  induction d₁ with
  | nil =>
      intro d₂ hk _ _
      cases d₂ with
      | nil => rfl
      | cons p r => simp [dictKeys] at hk
  | cons p r ih =>
      intro d₂ hk hn hl
      obtain ⟨k, v⟩ := p
      cases d₂ with
      | nil => simp [dictKeys] at hk
      | cons q r₂ =>
          obtain ⟨k₂, v₂⟩ := q
          simp only [dictKeys, List.map_cons, List.cons.injEq] at hk
          obtain ⟨hkk, hkr⟩ := hk
          subst hkk
          have hv : v = v₂ := by
            have hlk := hl k
            simpa [dictLookup] using hlk
          subst hv
          simp only [dictKeys, List.map_cons, List.nodup_cons] at hn
          have hknr : k ∉ dictKeys r := hn.1
          have hknr₂ : k ∉ dictKeys r₂ := by
            simpa only [dictKeys, ← hkr] using hknr
          congr 1
          apply ih r₂ hkr hn.2
          intro g
          by_cases hg : g = k
          · subst hg
            rw [dictLookup_not_mem g r hknr, dictLookup_not_mem g r₂ hknr₂]
          · have hkg : ¬ k = g := fun hh => hg hh.symm
            have hlg := hl g
            simpa [dictLookup, hkg] using hlg

theorem lookup_mergeInto : ∀ (l : List ATask) (d : PyDict) (g : String),
    dictLookup g (mergeInto d l) = oOr (lastValidG g l) (dictLookup g d) := by
  intro l
  induction l with
  | nil => intro d g; rfl
  | cons t r ih =>
      intro d g
      rw [mergeInto_cons, ih, lastValidG_cons, oOr_assoc]
      have hstep : dictLookup g (if validGid t then dictInsert d t.gid t else d)
          = oOr (if validGid t ∧ t.gid = g then some t else none) (dictLookup g d) := by
        by_cases hv : validGid t = true
        · rw [if_pos hv, dictLookup_insert]
          by_cases hg : g = t.gid
          · rw [if_pos hg, if_pos ⟨hv, hg.symm⟩, oOr_some]
          · rw [if_neg hg, if_neg (fun hc : validGid t = true ∧ t.gid = g => hg hc.2.symm)]
            rfl
        · rw [if_neg hv, if_neg (fun hc : validGid t = true ∧ t.gid = g => hv hc.1)]
          rfl
      rw [hstep]

theorem lastValidG_append (g : String) : ∀ (A B : List ATask),
    lastValidG g (A ++ B) = oOr (lastValidG g B) (lastValidG g A) := by
  intro A
  induction A with
  | nil => intro B; rw [List.nil_append]; exact (oOr_none_right _).symm
  | cons t A ih =>
      intro B
      rw [List.cons_append, lastValidG_cons, ih, oOr_assoc, lastValidG_cons]

theorem keys_mergeInto : ∀ (l : List ATask) (d : PyDict),
    dictKeys (mergeInto d l) = foldKeys (dictKeys d) l := by
  intro l
  induction l with
  | nil => intro d; rfl
  | cons t r ih =>
      intro d
      rw [mergeInto_cons, ih, foldKeys_cons]
      congr 1
      by_cases hv : validGid t = true
      · rw [if_pos hv, if_pos hv, dictKeys_insert]
      · rw [if_neg hv, if_neg hv]

theorem mem_foldKeys_mono : ∀ (l : List ATask) (ks : List String) (g : String),
    g ∈ ks → g ∈ foldKeys ks l := by
  intro l
  induction l with
  | nil => intro ks g h; exact h
  | cons t r ih =>
      intro ks g h
      rw [foldKeys_cons]
      apply ih
      split_ifs <;> first | exact h | exact List.mem_append_left _ h

theorem mem_foldKeys_of_mem : ∀ (l : List ATask) (ks : List String) (t : ATask),
    t ∈ l → validGid t = true → t.gid ∈ foldKeys ks l := by
  intro l
  induction l with
  | nil => intro ks t h; cases h
  | cons u r ih =>
      intro ks t ht hv
      rw [foldKeys_cons]
      rcases List.mem_cons.mp ht with h | h
      · subst h
        apply mem_foldKeys_mono
        rw [if_pos hv]
        by_cases hm : t.gid ∈ ks
        · rw [if_pos hm]; exact hm
        · rw [if_neg hm]
          exact List.mem_append_right _ (by simp)
      · exact ih _ t h hv

theorem foldKeys_absorbed : ∀ (l : List ATask) (ks : List String),
    (∀ t ∈ l, validGid t = true → t.gid ∈ ks) → foldKeys ks l = ks := by
  intro l
  induction l with
  | nil => intro ks _; rfl
  | cons u r ih =>
      intro ks h
      rw [foldKeys_cons]
      have hks : (if validGid u then (if u.gid ∈ ks then ks else ks ++ [u.gid]) else ks) = ks := by
        by_cases hv : validGid u = true
        · rw [if_pos hv, if_pos (h u (List.mem_cons_self u r) hv)]
        · rw [if_neg hv]
      rw [hks]
      exact ih ks (fun t ht hv => h t (List.mem_cons_of_mem u ht) hv)

theorem nodup_foldKeys : ∀ (l : List ATask) (ks : List String),
    ks.Nodup → (foldKeys ks l).Nodup := by
  intro l
  induction l with
  | nil => intro ks h; exact h
  | cons u r ih =>
      intro ks h
      rw [foldKeys_cons]
      apply ih
      split_ifs with hv hm
      · exact h
      · rw [List.nodup_append]
        refine ⟨h, List.nodup_singleton _, ?_⟩
        intro a ha hb
        rw [List.mem_singleton] at hb
        subst hb
        exact hm ha
      · exact h

/-- C6: the merge of fetched item sequences keyed by gid is last-write-wins
— whenever a gid has a (valid) occurrence in the later subtasks sequence,
the merged map holds that (last) occurrence, overwriting any parents
occurrence — and the merge is idempotent: re-merging the subtasks sequence
into `merge(A, B)` leaves the dict unchanged. -/
theorem merge_lww_and_idempotent (A B : List ATask) (g : String) :
    (lastValidG g B ≠ none → dictLookup g (mergeByGid A B) = lastValidG g B)
    ∧ mergeInto (mergeByGid A B) B = mergeByGid A B := by
  constructor
  · intro hB
    unfold mergeByGid
    rw [lookup_mergeInto, lastValidG_append,
      show dictLookup g ([] : PyDict) = none from rfl, oOr_none_right]
    cases hcase : lastValidG g B with
    | none => exact absurd hcase hB
    | some x => rw [oOr_some]
  · apply dict_ext
    · rw [keys_mergeInto]
      apply foldKeys_absorbed
      intro t ht hv
      unfold mergeByGid
      rw [keys_mergeInto]
      exact mem_foldKeys_of_mem (A ++ B) _ t (List.mem_append_right A ht) hv
    · rw [keys_mergeInto]
      apply nodup_foldKeys
      unfold mergeByGid
      rw [keys_mergeInto]
      exact nodup_foldKeys _ _ List.nodup_nil
    · intro g'
      unfold mergeByGid
      rw [lookup_mergeInto, lookup_mergeInto, lastValidG_append,
        show dictLookup g' ([] : PyDict) = none from rfl, oOr_none_right,
        oOr_self_absorb]

theorem merge_lww_witness :
    dictLookup "7" (mergeByGid [tParentV] [tSubV]) = lastValidG "7" [tSubV]
    ∧ mergeInto (mergeByGid [tParentV] [tSubV]) [tSubV] = mergeByGid [tParentV] [tSubV] :=
  ⟨(merge_lww_and_idempotent [tParentV] [tSubV] "7").1 (by decide),
   (merge_lww_and_idempotent [tParentV] [tSubV] "7").2⟩

/-! ## Claim C7 — what the merge and filter stages do to item contents -/

theorem mem_values_insert (t v : ATask) (g : String) :
    ∀ d : PyDict, v ∈ dictValues (dictInsert d g t) → v = t ∨ v ∈ dictValues d := by
  intro d
  induction d with
  | nil =>
      intro h
      simp [dictInsert, dictValues] at h
      exact Or.inl h
  | cons p rest ih =>
      obtain ⟨k, w⟩ := p
      intro h
      by_cases hk : k = g
      · simp only [dictInsert, if_pos hk, dictValues, List.map_cons, List.mem_cons] at h
        rcases h with h | h
        · exact Or.inl h
        · exact Or.inr (by simp [dictValues, h])
      · simp only [dictInsert, if_neg hk, dictValues, List.map_cons, List.mem_cons] at h
        rcases h with h | h
        · exact Or.inr (by simp [dictValues, h])
        · rcases ih h with h' | h'
          · exact Or.inl h'
          · exact Or.inr (by simp [dictValues] at h' ⊢; exact Or.inr h')

theorem mem_values_mergeInto : ∀ (l : List ATask) (d : PyDict) (v : ATask),
    v ∈ dictValues (mergeInto d l) → v ∈ dictValues d ∨ v ∈ l := by
  intro l
  induction l with
  | nil => intro d v h; exact Or.inl h
  | cons t r ih =>
      intro d v h
      rw [mergeInto_cons] at h
      rcases ih _ v h with h' | h'
      · by_cases hv : validGid t = true
        · rw [if_pos hv] at h'
          rcases mem_values_insert t v t.gid d h' with h'' | h''
          · exact Or.inr (by simp [h''])
          · exact Or.inl h''
        · rw [if_neg hv] at h'
          exact Or.inl h'
      · exact Or.inr (List.mem_cons_of_mem t h')

/-- Both branches of the annotation conditional store the same value. -/
theorem annotateTask_eq (friendly gid : String) (t : ATask) :
    annotateTask friendly gid t = { t with assigneeFriendly := some friendly } := by
  unfold annotateTask
  split <;> rfl

/-- C7 counterexample: a task fetched with no `_assignee_friendly` key
leaves the merge-dedupe + container-filter pipeline with that field set —
the sole item in the output is not field-for-field equal to any item the
fetch stage produced, because the merge block mutates every merged task by
writing `_assignee_friendly`. -/
theorem stages_mutate_cex :
    containerFilterStage false (mergeStage "Dalton Phillips" "99" [tSample] [])
      = [{ tSample with assigneeFriendly := some "Dalton Phillips" }]
    ∧ { tSample with assigneeFriendly := some "Dalton Phillips" }
        ∉ ([tSample] ++ ([] : List ATask)) := by
  constructor
  · rfl
  · decide

/-- C7 (amended): the merge-by-gid fold and the container filter themselves
never mutate — they only select among the fetched items — but every item
leaving the merge stage has been annotated with `_assignee_friendly`: each
item surviving both stages is exactly a fetched item with its
`assigneeFriendly` field overwritten by the query's friendly name, all
other fields unchanged. -/
theorem stages_only_annotate (friendly gid : String) (includeHub : Bool)
    (parents subs : List ATask) (t' : ATask)
    (h : t' ∈ containerFilterStage includeHub (mergeStage friendly gid parents subs)) :
    ∃ t, t ∈ parents ++ subs ∧ t' = { t with assigneeFriendly := some friendly } := by
  have hmem : t' ∈ mergeStage friendly gid parents subs :=
    (List.mem_filter.mp h).1
  unfold mergeStage at hmem
  rcases List.mem_map.mp hmem with ⟨u, hu, heq⟩
  have humem : u ∈ dictValues ([] : PyDict) ∨ u ∈ parents ++ subs :=
    mem_values_mergeInto (parents ++ subs) [] u hu
  rcases humem with h0 | h0
  · simp [dictValues] at h0
  · exact ⟨u, h0, by rw [← heq, annotateTask_eq]⟩

theorem stages_only_annotate_witness :
    ∃ t, t ∈ [tSample] ++ ([] : List ATask)
      ∧ { tSample with assigneeFriendly := some "Dalton Phillips" }
          = { t with assigneeFriendly := some "Dalton Phillips" } :=
  stages_only_annotate "Dalton Phillips" "99" false [tSample] []
    { tSample with assigneeFriendly := some "Dalton Phillips" } (by decide)

/-! ## Claim C10 — the `_assignee_friendly` annotation -/

/-- C10: every task returned by the pull carries `_assignee_friendly` equal
to the friendly name whose assignee gid was used in that task's fetch
query — with no condition on the task's own assignee gid, because both
branches of the annotation conditional assign the same value. -/
theorem pull_tasks_friendly (fetch : String → String → Bool → List ATask)
    (days : List String) (assignees : List (String × String)) (t' : ATask)
    (h : t' ∈ pull_writer_tasks fetch days assignees) :
    ∃ day p, day ∈ days ∧ p ∈ assignees
      ∧ t' ∈ mergeStage p.1 p.2 (fetch day p.2 false) (fetch day p.2 true)
      ∧ t'.assigneeFriendly = some p.1 := by
  unfold pull_writer_tasks at h
  rcases List.mem_flatMap.mp h with ⟨day, hday, h2⟩
  rcases List.mem_flatMap.mp h2 with ⟨p, hp, h3⟩
  refine ⟨day, p, hday, hp, h3, ?_⟩
  unfold mergeStage at h3
  rcases List.mem_map.mp h3 with ⟨u, _, heq⟩
  rw [← heq, annotateTask_eq]

theorem pull_tasks_friendly_witness :
    ∃ day p, day ∈ ["2026-10-13"] ∧ p ∈ [("Dalton Phillips", "99")]
      ∧ { tSample with assigneeFriendly := some "Dalton Phillips" }
          ∈ mergeStage p.1 p.2
              ((fun _ _ b => if b then [] else [tSample]) day p.2 false)
              ((fun _ _ b => if b then [] else [tSample]) day p.2 true)
      ∧ ({ tSample with assigneeFriendly := some "Dalton Phillips" } : ATask).assigneeFriendly
          = some p.1 :=
  pull_tasks_friendly (fun _ _ b => if b then [] else [tSample])
    ["2026-10-13"] [("Dalton Phillips", "99")]
    { tSample with assigneeFriendly := some "Dalton Phillips" } (by decide)
